import Mathlib

/-!
Verification development for the `route` package (a Go route-composition
library).  The package builds groups of `(path, handlerFunc)` routes, attaches
middleware to groups, nests groups as subgroups, and finally compiles the
result into a multiplexer.

Shallow embedding conventions:
  * `F` is an abstract type of non-nil Go handler-function values; a Go
    `http.HandlerFunc` variable (which may be nil) is `Option F`.
  * A Go `route.Middleware` function value is `Option F → Option F`; a Go
    variable of that type (which may itself be nil) is `Option (Option F → Option F)`.
  * Every code path that calls `exit(1)` (or would panic at composition time)
    is modelled with `Except Err`, the `Err` constructor named after the Go
    error variable that is logged at that point.
  * The `*http.ServeMux` field is `Option (List (String × Option F))`:
    `none` is a nil mux pointer, `some table` a mux holding the bindings in
    the order `HandleFunc` was called on them.
-/

namespace Route

/-- A Go `http.HandlerFunc` value: `none` is the nil function value. -/
abbrev HandlerFunc (F : Type) := Option F

/-- A Go `route.Middleware` function (src/route.go line 19:
`type Middleware func(http.HandlerFunc) http.HandlerFunc`). -/
abbrev Middleware (F : Type) := HandlerFunc F → HandlerFunc F

/-- A Go variable of type `route.Middleware`: the value may be the nil function. -/
abbrev MwVal (F : Type) := Option (Middleware F)

/-- src/route.go lines 22-25: `route` comprises a path and a HandlerFunc. -/
structure Route (F : Type) where
  path : String
  handlerFunc : HandlerFunc F
  deriving DecidableEq

/-- The bindings held by an `http.ServeMux`, in registration order.  The
mux's own matching/duplicate policy is the external collaborator's concern. -/
abbrev MuxTable (F : Type) := List (String × HandlerFunc F)

/-- src/route.go lines 42-46: a `Group` holds a mux pointer (possibly nil),
the middleware sequence and the route sequence. -/
structure Group (F : Type) where
  mux : Option (MuxTable F)
  mwares : List (MwVal F)
  routes : List (Route F)

/-- src/route.go lines 48-50: `NewGroup` returns an empty group. -/
def NewGroup (F : Type) : Group F := ⟨none, [], []⟩

/-- The fatal outcomes.  Each constructor is named after the Go error variable
logged before `exit(1)` (src/route.go lines 52-63), except
`nilMiddlewareInvoked`, which stands for the runtime panic Go raises when a
nil function value stored in `mwares` is called during composition. -/
inductive Err where
  | handlerUsed
  | handleFormat
  | switchDefault (ty contents : String)
  | nilFunc
  | nilHandlerFunc
  | nilHandler
  | nilMiddleware
  | nilGroup
  | funcReturnNil
  | groupUsed
  | nilMiddlewareInvoked
  deriving DecidableEq

/-- src/route.go lines 109-115: one step of the middleware loop — invoking a
nil middleware value would panic, a nil result exits with `errFuncReturnNil`,
otherwise the wrapped handler replaces the current one. -/
def applyOne {F : Type} (m : MwVal F) (h1 : HandlerFunc F) :
    Except Err (HandlerFunc F) :=
  match m with
  | none => .error .nilMiddlewareInvoked
  | some f =>
    match f h1 with
    | none => .error .funcReturnNil
    | some v => .ok (some v)

/-- src/route.go lines 106-116, the inner loop of `compose`: the middleware
list is applied to `h` by reverse index (`mwares[len-1]` first, `mwares[0]`
last).  The recursion applies the tail (the later-registered middleware)
first, which is exactly the reverse-index traversal of the loop. -/
def applyMwares {F : Type} (mwares : List (MwVal F)) (h : HandlerFunc F) :
    Except Err (HandlerFunc F) :=
  match mwares with
  | [] => .ok h
  | m :: rest =>
    match applyMwares rest h with
    | .error e => .error e
    | .ok h1 => applyOne m h1

/-- src/route.go lines 92-116, the outer loop of `compose` up to the mux
branch: each route is processed by reverse index (the last route first, which
the recursion mirrors by processing `rest` before `r`, so the error raised is
the one of the latest route, as in the code); a nil `handlerFunc` exits with
`errNilFunc`, then the middleware chain is applied.  The wrapped routes are
returned in their original positions, as the in-place mutation does. -/
def wrapRoutes {F : Type} (mwares : List (MwVal F)) :
    List (Route F) → Except Err (List (Route F))
  | [] => .ok []
  | r :: rest =>
    match wrapRoutes mwares rest with
    | .error e => .error e
    | .ok rest' =>
      match r.handlerFunc with
      | none => .error .nilFunc
      | some f =>
        match applyMwares mwares (some f) with
        | .error e => .error e
        | .ok h' => .ok (⟨r.path, h'⟩ :: rest')

/-- src/route.go lines 91-128, `compose`: wrap every route with the group's
middleware; with a nil mux the routes are replaced in place by their wrapped
versions, with a non-nil mux each wrapped handler is registered on the mux
(the routes slice is left as it was) in reverse route order, which is the
order the loop calls `Mux.HandleFunc`. -/
def Group.compose {F : Type} (g : Group F) : Except Err (Group F) :=
  match wrapRoutes g.mwares g.routes with
  | .error e => .error e
  | .ok rs =>
    match g.mux with
    | none => .ok { g with routes := rs }
    | some table =>
      .ok { g with mux := some (table ++ (rs.reverse.map fun r => (r.path, r.handlerFunc))) }

/-- src/route.go lines 132-138, `Compile`: allocate a fresh mux when the field
is nil, then run `compose` (which, the mux now being non-nil, registers every
wrapped route on it).  Go returns `g.Mux`; we return the whole group, whose
`mux` field is that return value. -/
def Group.Compile {F : Type} (g : Group F) : Except Err (Group F) :=
  match g.mux with
  | none => Group.compose { g with mux := some [] }
  | some _ => g.compose

/-- The possible dynamic types of an `any` argument to `Group.Wrap`
(src/route.go lines 144-164).  `mwTyped` is a value whose dynamic type is the
named type `route.Middleware`; `mwFunc` one whose dynamic type is the unnamed
type `func(http.HandlerFunc) http.HandlerFunc` (a Go type switch distinguishes
the two); `handlerIface` a non-nil value implementing `http.Handler`; `other`
any other dynamic type, recorded as the `%T` and `%v` strings that `what`
(src/route.go lines 65-67) would print. -/
inductive WrapArg (F : Type) where
  | mwTyped : MwVal F → WrapArg F
  | mwFunc : MwVal F → WrapArg F
  | handlerIface : WrapArg F
  | other : String → String → WrapArg F

/-- src/route.go lines 142-168, `Wrap`: a nil value of the named `Middleware`
type exits with `errNilMiddleware`; a value of the unnamed function type is
appended with no nil check; an `http.Handler` exits with `errHandlerUsed`
(the `t == nil` test on that arm can never be true for a matched interface
case, so it is dead code); anything else exits with `errSwitchDefault` and
the offending type and contents. -/
def Group.Wrap {F : Type} (g : Group F) : List (WrapArg F) → Except Err (Group F)
  | [] => .ok g
  | a :: rest =>
    match a with
    | .mwTyped none => .error .nilMiddleware
    | .mwTyped (some m) => Group.Wrap { g with mwares := g.mwares ++ [some m] } rest
    | .mwFunc m? => Group.Wrap { g with mwares := g.mwares ++ [m?] } rest
    | .handlerIface => .error .handlerUsed
    | .other ty contents => .error (.switchDefault ty contents)

/-- The possible dynamic types of an `any` argument to `Group.Handle`
(src/route.go lines 177-227): a `route.Group` passed by value, a `*route.Group`
(possibly nil), an `http.HandlerFunc` (possibly nil), a non-nil `http.Handler`
(a nil interface never reaches that arm), an unnamed `func(http.ResponseWriter,
*http.Request)` (possibly nil, never nil-checked), a `string`, or any other
type recorded as its `%T` and `%v` strings. -/
inductive HandleArg (F : Type) where
  | groupVal : HandleArg F
  | groupPtr : Option (Group F) → HandleArg F
  | handlerFn : Option F → HandleArg F
  | handlerIface : F → HandleArg F
  | rawFunc : Option F → HandleArg F
  | str : String → HandleArg F
  | other : String → String → HandleArg F

/-- src/route.go lines 173-229, the loop body of `Handle`.  `path` is the
`var path string` local, `offset` counts the groups seen so far, `i` is the
loop index.  A `route.Group` by value exits with `errGroupUsed`; a nil
`*Group` with `errNilGroup`; a non-nil `*Group` is composed and its routes
appended (and `offset` bumped); handler values are nil-checked (except the
raw-function arm, which has no nil check), parity-checked against
`(i+offset) % 2 == 1` and appended under the current `path` — the
`http.Handler` arm goes through `wrap`, modelled by `wrapH`, which builds the
delegating closure; a string is parity-checked against `(i+offset) % 2 == 0`
and becomes the new `path`; anything else exits with `errSwitchDefault` and
the offending type and contents. -/
def handleLoop {F : Type} (wrapH : F → F) (g : Group F) (path : String)
    (offset i : Nat) : List (HandleArg F) → Except Err (Group F)
  | [] => .ok g
  | a :: rest =>
    match a with
    | .groupVal => .error .groupUsed
    | .groupPtr none => .error .nilGroup
    | .groupPtr (some t) =>
      match t.compose with
      | .error e => .error e
      | .ok t' =>
        handleLoop wrapH { g with routes := g.routes ++ t'.routes } path
          (offset + 1) (i + 1) rest
    | .handlerFn none => .error .nilHandlerFunc
    | .handlerFn (some f) =>
      if (i + offset) % 2 ≠ 1 then .error .handleFormat
      else handleLoop wrapH { g with routes := g.routes ++ [⟨path, some f⟩] } path
        offset (i + 1) rest
    | .handlerIface h =>
      if (i + offset) % 2 ≠ 1 then .error .handleFormat
      else handleLoop wrapH { g with routes := g.routes ++ [⟨path, some (wrapH h)⟩] } path
        offset (i + 1) rest
    | .rawFunc f? =>
      if (i + offset) % 2 ≠ 1 then .error .handleFormat
      else handleLoop wrapH { g with routes := g.routes ++ [⟨path, f?⟩] } path
        offset (i + 1) rest
    | .str s =>
      if (i + offset) % 2 ≠ 0 then .error .handleFormat
      else handleLoop wrapH g s offset (i + 1) rest
    | .other ty contents => .error (.switchDefault ty contents)

/-- src/route.go lines 173-176: `Handle` starts with the empty path, zero
offset and loop index zero. -/
def Group.Handle {F : Type} (wrapH : F → F) (g : Group F)
    (args : List (HandleArg F)) : Except Err (Group F) :=
  handleLoop wrapH g ("") 0 0 args

/-- The specification-side composition formula: `mwChain [m0, m1, ..., mk] h`
is `m0 (m1 (... (mk h)))`, the first-registered middleware outermost. -/
def mwChain {F : Type} (ms : List (Middleware F)) (h : HandlerFunc F) : HandlerFunc F :=
  ms.foldr (fun m acc => m acc) h

/-- The specification-side wrapped route list: every handler replaced by its
`mwChain` wrapping, paths and order untouched. -/
def wrapList {F : Type} (ms : List (Middleware F)) (rs : List (Route F)) : List (Route F) :=
  rs.map fun r => ⟨r.path, mwChain ms r.handlerFunc⟩

/-- A heap of groups: `*route.Group` pointers are indices into this list, so
that the aliasing behaviour of src/route.go's pointer receivers can be
stated.  Group structs reached through different indices share no state; the
`routes` and `mwares` fields hold the slices by value, as Go's
`append(g.routes, t.routes...)` copies the elements of `t.routes` into `g`'s
backing array. -/
abbrev Store (F : Type) := List (Group F)

/-- src/route.go lines 181-189, `g.Handle(sub)` for one `*Group` argument,
with both pointers live in the store: the subgroup at `si` is composed in
place (`t = t.compose()` writes through the pointer), then the parent at `gi`
gets a value copy of the composed routes appended.  A dangling index is
mapped to the nil-pointer error. -/
def storeHandleGroup {F : Type} (σ : Store F) (gi si : Nat) : Except Err (Store F) :=
  match σ.get? gi, σ.get? si with
  | some g, some s =>
    match s.compose with
    | .error e => .error e
    | .ok s' => .ok ((σ.set si s').set gi { g with routes := g.routes ++ s'.routes })
  | _, _ => .error .nilGroup

/-- The two ways the claim mutates the subgroup after it was nested:
attaching further middleware (`Wrap`) or registering further units
(`Handle`). -/
inductive SubMutation (F : Type) where
  | attach : List (WrapArg F) → SubMutation F
  | register : List (HandleArg F) → SubMutation F

/-- A mutation applied through the subgroup's pointer: `Wrap` and `Handle`
both write back only through the receiver, src/route.go lines 142-168 and
173-229. -/
def storeMutate {F : Type} (wrapH : F → F) (σ : Store F) (si : Nat) :
    SubMutation F → Except Err (Store F)
  | .attach args =>
    match σ.get? si with
    | some s =>
      match s.Wrap args with
      | .error e => .error e
      | .ok s' => .ok (σ.set si s')
    | none => .error .nilGroup
  | .register args =>
    match σ.get? si with
    | some s =>
      match Group.Handle wrapH s args with
      | .error e => .error e
      | .ok s' => .ok (σ.set si s')
    | none => .error .nilGroup

/-- The cons unfolding of `applyMwares`, for rewriting. -/
theorem applyMwares_cons {F : Type} (m : MwVal F) (rest : List (MwVal F))
    (h : HandlerFunc F) :
    applyMwares (m :: rest) h =
      match applyMwares rest h with
      | .error e => .error e
      | .ok h1 => applyOne m h1 := rfl

/-- Inverting a successful middleware chain application: when every middleware
in the list is a non-nil value and the chain succeeds, the result is exactly
the first-registered-outermost composition `mwChain`. -/
theorem applyMwares_ok_eq {F : Type} (ms : List (Middleware F)) (h h' : HandlerFunc F)
    (hok : applyMwares (ms.map some) h = .ok h') : h' = mwChain ms h := by
  induction ms generalizing h' with
  | nil =>
    simp only [List.map_nil, applyMwares, Except.ok.injEq] at hok
    simpa [mwChain] using hok.symm
  | cons m rest ih =>
    rw [List.map_cons] at hok
    unfold applyMwares at hok
    cases hrec : applyMwares (rest.map some) h with
    | error e => rw [hrec] at hok; exact absurd hok (by simp)
    | ok h1 =>
      rw [hrec] at hok
      simp only [] at hok
      simp only [applyOne] at hok
      cases hv : m h1 with
      | none => rw [hv] at hok; exact absurd hok (by simp)
      | some v =>
        rw [hv] at hok
        simp only [Except.ok.injEq] at hok
        have hrw := ih h1 hrec
        simp only [mwChain, List.foldr_cons] at hrw ⊢
        rw [← hok, ← hrw, hv]

/-- Inverting a successful route wrapping pass: when every middleware value in
the group's sequence is non-nil, the wrapped list is `wrapList` — every
handler replaced by its `mwChain` wrapping. -/
theorem wrapRoutes_map_some_ok {F : Type} (ms : List (Middleware F))
    (rs rs' : List (Route F)) (hok : wrapRoutes (ms.map some) rs = .ok rs') :
    rs' = wrapList ms rs := by
  induction rs generalizing rs' with
  | nil =>
    simp only [wrapRoutes, Except.ok.injEq] at hok
    simpa [wrapList] using hok.symm
  | cons r rest ih =>
    unfold wrapRoutes at hok
    cases hrec : wrapRoutes (ms.map some) rest with
    | error e => rw [hrec] at hok; exact absurd hok (by simp)
    | ok rest' =>
      rw [hrec] at hok
      simp only [] at hok
      cases hhf : r.handlerFunc with
      | none => rw [hhf] at hok; exact absurd hok (by simp)
      | some f =>
        rw [hhf] at hok
        simp only [] at hok
        cases happ : applyMwares (ms.map some) (some f) with
        | error e => rw [happ] at hok; exact absurd hok (by simp)
        | ok h1 =>
          rw [happ] at hok
          simp only [] at hok
          simp only [Except.ok.injEq] at hok
          have hchain := applyMwares_ok_eq ms (some f) h1 happ
          simp only [wrapList, List.map_cons] at ih ⊢
          rw [← hok]
          simp only [List.cons.injEq]
          constructor
          · rw [hchain, hhf]
          · exact ih rest' hrec

/-- Inverting a successful route wrapping pass for an arbitrary middleware
value sequence: the length and every path are preserved (only the
handler-function field of each route is replaced). -/
theorem wrapRoutes_ok_paths {F : Type} (mws : List (MwVal F))
    (rs rs' : List (Route F)) (hok : wrapRoutes mws rs = .ok rs') :
    rs'.length = rs.length ∧
      ∀ i, (hi : i < rs.length) → (hi2 : i < rs'.length) →
        rs'[i].path = rs[i].path := by
  induction rs generalizing rs' with
  | nil =>
    simp only [wrapRoutes, Except.ok.injEq] at hok
    subst hok
    exact ⟨rfl, by intro i hi; exact absurd hi (by simp)⟩
  | cons r rest ih =>
    unfold wrapRoutes at hok
    cases hrec : wrapRoutes mws rest with
    | error e => rw [hrec] at hok; exact absurd hok (by simp)
    | ok rest' =>
      rw [hrec] at hok
      simp only [] at hok
      cases hhf : r.handlerFunc with
      | none => rw [hhf] at hok; exact absurd hok (by simp)
      | some f =>
        rw [hhf] at hok
        simp only [] at hok
        cases happ : applyMwares mws (some f) with
        | error e => rw [happ] at hok; exact absurd hok (by simp)
        | ok h1 =>
          rw [happ] at hok
          simp only [] at hok
          simp only [Except.ok.injEq] at hok
          obtain ⟨hlen, hpaths⟩ := ih rest' hrec
          subst hok
          refine ⟨by simpa using hlen, ?_⟩
          intro i hi hi2
          cases i with
          | zero => rfl
          | succ j =>
            simp only [List.getElem_cons_succ]
            exact hpaths j (by simpa using hi) (by simpa using hi2)

/-- Inverting a successful `compose` on a group whose mux pointer is nil: the
resulting routes are the successfully wrapped ones, and the mux and middleware
fields are untouched. -/
theorem compose_ok_inv {F : Type} (g g' : Group F) (hmux : g.mux = none)
    (hok : g.compose = .ok g') :
    wrapRoutes g.mwares g.routes = .ok g'.routes ∧
      g'.mux = none ∧ g'.mwares = g.mwares := by
  unfold Group.compose at hok
  cases hw : wrapRoutes g.mwares g.routes with
  | error e => rw [hw] at hok; exact absurd hok (by simp)
  | ok rs =>
    rw [hw, hmux] at hok
    simp only [] at hok
    simp only [Except.ok.injEq] at hok
    subst hok
    exact ⟨rfl, rfl, rfl⟩

/-- C1: for a group whose middleware sequence is `[m0, m1, ..., mk]` in
registration order, a successful composition replaces every unit's handler
`h` by `m0 (m1 (... (mk h)))`: the first-registered middleware is the
outermost wrapper for every unit of the group. -/
theorem compose_first_registered_outermost {F : Type} (g g' : Group F)
    (ms : List (Middleware F)) (hmw : g.mwares = ms.map some)
    (hmux : g.mux = none) (hok : g.compose = .ok g') :
    g'.routes = wrapList ms g.routes := by
  obtain ⟨hw, -, -⟩ := compose_ok_inv g g' hmux hok
  rw [hmw] at hw
  exact wrapRoutes_map_some_ok ms g.routes g'.routes hw

/-- C1 witness: a concrete two-middleware group; the handler `3` becomes
`(3 * 2) + 1 = 7`, the first-registered `+1` applied outermost (last). -/
theorem compose_first_registered_outermost_witness :
    Group.compose (⟨none, [some (Option.map (· + 1)), some (Option.map (· * 2))],
        [⟨("/a"), some 3⟩]⟩ : Group Nat) =
      .ok (⟨none, [some (Option.map (· + 1)), some (Option.map (· * 2))],
        [⟨("/a"), some 7⟩]⟩ : Group Nat) ∧
    ([⟨("/a"), some 7⟩] : List (Route Nat)) =
      wrapList [Option.map (· + 1), Option.map (· * 2)] [⟨("/a"), some 3⟩] :=
  ⟨rfl, compose_first_registered_outermost
    (⟨none, [some (Option.map (· + 1)), some (Option.map (· * 2))],
      [⟨("/a"), some 3⟩]⟩ : Group Nat)
    (⟨none, [some (Option.map (· + 1)), some (Option.map (· * 2))],
      [⟨("/a"), some 7⟩]⟩ : Group Nat)
    [Option.map (· + 1), Option.map (· * 2)] rfl rfl rfl⟩

/-- C9: a successful composition (on a group whose mux pointer is nil, the
branch in which the route list is replaced) preserves the number of units,
their order and every unit's path: the wrapped list has the same length and
the i-th wrapped unit carries the i-th registered unit's path; only the
handler-function field changes. -/
theorem compose_preserves_count_order_paths {F : Type} (g g' : Group F)
    (hmux : g.mux = none) (hok : g.compose = .ok g') :
    g'.routes.length = g.routes.length ∧
      ∀ i, (hi : i < g.routes.length) → (hi2 : i < g'.routes.length) →
        g'.routes[i].path = g.routes[i].path := by
  obtain ⟨hw, -, -⟩ := compose_ok_inv g g' hmux hok
  exact wrapRoutes_ok_paths g.mwares g.routes g'.routes hw

/-- C9 witness: a concrete two-route group with one middleware; composition
keeps both paths in place and only rewrites the handlers. -/
theorem compose_preserves_count_order_paths_witness :
    Group.compose (⟨none, [some (Option.map (· + 5))],
        [⟨("/a"), some 1⟩, ⟨("/b"), some 2⟩]⟩ : Group Nat) =
      .ok (⟨none, [some (Option.map (· + 5))],
        [⟨("/a"), some 6⟩, ⟨("/b"), some 7⟩]⟩ : Group Nat) ∧
    (([⟨("/a"), some 6⟩, ⟨("/b"), some 7⟩] : List (Route Nat)).length =
        ([⟨("/a"), some 1⟩, ⟨("/b"), some 2⟩] : List (Route Nat)).length ∧
      ∀ i, (hi : i < ([⟨("/a"), some 1⟩, ⟨("/b"), some 2⟩] : List (Route Nat)).length) →
        (hi2 : i < ([⟨("/a"), some 6⟩, ⟨("/b"), some 7⟩] : List (Route Nat)).length) →
        ([⟨("/a"), some 6⟩, ⟨("/b"), some 7⟩] : List (Route Nat))[i].path =
          ([⟨("/a"), some 1⟩, ⟨("/b"), some 2⟩] : List (Route Nat))[i].path) :=
  ⟨rfl, compose_preserves_count_order_paths
    (⟨none, [some (Option.map (· + 5))],
      [⟨("/a"), some 1⟩, ⟨("/b"), some 2⟩]⟩ : Group Nat)
    (⟨none, [some (Option.map (· + 5))],
      [⟨("/a"), some 6⟩, ⟨("/b"), some 7⟩]⟩ : Group Nat) rfl rfl⟩

/-- C8: a group holding exactly one unit and no middleware composes to that
unit unchanged — same path, same handler-function, nothing else of the group
touched. -/
theorem singleton_no_middleware_compose_id {F : Type} (p : String) (f : F) :
    Group.compose (⟨none, [], [⟨p, some f⟩]⟩ : Group F) =
      .ok (⟨none, [], [⟨p, some f⟩]⟩ : Group F) := rfl

/-- C10: compiling (or composing) a freshly created empty group succeeds with
no fatal error and yields a multiplexer with an empty binding table. -/
theorem empty_group_compile_ok (F : Type) :
    Group.Compile (NewGroup F) = .ok (⟨some [], [], []⟩ : Group F) ∧
    Group.compose (NewGroup F) = .ok (NewGroup F) := ⟨rfl, rfl⟩

/-- C7: an argument to registration of an unrecognised dynamic type makes the
registration fail fatally with the switch-default error, whatever group state,
current path, offset and position have been reached, and the error carries
both the offending value's type and its contents. -/
theorem unrecognized_registration_fatal {F : Type} (wrapH : F → F) (g : Group F)
    (path : String) (offset i : Nat) (ty contents : String)
    (rest : List (HandleArg F)) :
    handleLoop wrapH g path offset i (.other ty contents :: rest) =
      .error (.switchDefault ty contents) := rfl

/-- C4 counterexample: attaching a single nil middleware value whose dynamic
type is the unnamed function type `func(http.HandlerFunc) http.HandlerFunc`
does not fail at the attach call — `Wrap` succeeds and the nil value is
appended to the group's middleware sequence, refuting the claim that every
nil middleware is rejected with the `errNilMiddleware` fatal error before
being appended. -/
theorem wrap_nil_raw_middleware_accepted :
    Group.Wrap (NewGroup Nat) [.mwFunc none] =
      .ok (⟨none, [none], []⟩ : Group Nat) := rfl

/-- C4 amended: a nil middleware value of the named `route.Middleware` type
fails fatally with `errNilMiddleware` at the attach call, at any argument
position (after any run of already-appended raw-function values), before
being appended; but a middleware value supplied with the unnamed raw function
type is appended to the middleware sequence with no nil check at all. -/
theorem wrap_nil_middleware_check {F : Type} (g : Group F)
    (pre : List (MwVal F)) (rest : List (WrapArg F)) (m? : MwVal F) :
    Group.Wrap g (pre.map WrapArg.mwFunc ++ WrapArg.mwTyped none :: rest) =
        .error .nilMiddleware ∧
      Group.Wrap g [WrapArg.mwFunc m?] = .ok { g with mwares := g.mwares ++ [m?] } := by
  refine ⟨?_, rfl⟩
  induction pre generalizing g with
  | nil => rfl
  | cons m' pres ih => exact ih { g with mwares := g.mwares ++ [m'] }

/-- C3 counterexample: composing the same one-route, one-middleware group
(mux pointer nil) twice is neither a no-op nor rejected: the first run turns
the handler `0` into `1`, the second run succeeds and applies the middleware
again, turning it into `2`. -/
theorem compose_recompose_not_noop :
    ((Group.compose (⟨none, [some (Option.map (· + 1))], [⟨("/"), some 0⟩]⟩ : Group Nat)).map
        Group.routes = .ok [⟨("/"), some 1⟩]) ∧
      (((Group.compose (⟨none, [some (Option.map (· + 1))], [⟨("/"), some 0⟩]⟩ : Group Nat)).bind
          Group.compose).map Group.routes = .ok [⟨("/"), some 2⟩]) ∧
      ([⟨("/"), some 1⟩] : List (Route Nat)) ≠ [⟨("/"), some 2⟩] :=
  ⟨rfl, rfl, by decide⟩

/-- C3 amended: re-running composition on an already-composed group whose mux
pointer is nil is neither a no-op nor rejected: the second run succeeds and
applies the middleware sequence a second time, so after two runs every unit's
handler is the double wrapping `mwChain ms (mwChain ms h)` of its original
handler. -/
theorem compose_recompose_double_wraps {F : Type} (g g1 g2 : Group F)
    (ms : List (Middleware F)) (hmw : g.mwares = ms.map some)
    (hmux : g.mux = none) (h1 : g.compose = .ok g1) (h2 : g1.compose = .ok g2) :
    g1.routes = wrapList ms g.routes ∧
      g2.routes = wrapList ms (wrapList ms g.routes) := by
  obtain ⟨hw1, hmux1, hmw1⟩ := compose_ok_inv g g1 hmux h1
  rw [hmw] at hw1
  have hr1 : g1.routes = wrapList ms g.routes :=
    wrapRoutes_map_some_ok ms g.routes g1.routes hw1
  obtain ⟨hw2, -, -⟩ := compose_ok_inv g1 g2 hmux1 h2
  rw [hmw1, hmw] at hw2
  have hr2 : g2.routes = wrapList ms g1.routes :=
    wrapRoutes_map_some_ok ms g1.routes g2.routes hw2
  exact ⟨hr1, by rw [hr2, hr1]⟩

/-- C3 amended witness: the concrete group of the counterexample run through
the amended theorem; both hypotheses hold by computation. -/
theorem compose_recompose_double_wraps_witness :
    Group.compose (⟨none, [some (Option.map (· + 1))], [⟨("/"), some 0⟩]⟩ : Group Nat) =
        .ok (⟨none, [some (Option.map (· + 1))], [⟨("/"), some 1⟩]⟩ : Group Nat) ∧
      Group.compose (⟨none, [some (Option.map (· + 1))], [⟨("/"), some 1⟩]⟩ : Group Nat) =
        .ok (⟨none, [some (Option.map (· + 1))], [⟨("/"), some 2⟩]⟩ : Group Nat) ∧
      (([⟨("/"), some 1⟩] : List (Route Nat)) =
          wrapList [Option.map (· + 1)] [⟨("/"), some 0⟩] ∧
        ([⟨("/"), some 2⟩] : List (Route Nat)) =
          wrapList [Option.map (· + 1)] (wrapList [Option.map (· + 1)] [⟨("/"), some 0⟩])) :=
  ⟨rfl, rfl, compose_recompose_double_wraps
    (⟨none, [some (Option.map (· + 1))], [⟨("/"), some 0⟩]⟩ : Group Nat)
    (⟨none, [some (Option.map (· + 1))], [⟨("/"), some 1⟩]⟩ : Group Nat)
    (⟨none, [some (Option.map (· + 1))], [⟨("/"), some 2⟩]⟩ : Group Nat)
    [Option.map (· + 1)] rfl rfl rfl rfl⟩

/-- Splitting a middleware chain application at an arbitrary position: the
later-registered part `ys` is applied first, and only if it succeeds is the
earlier-registered part `xs` applied to its result. -/
theorem applyMwares_append {F : Type} (xs ys : List (MwVal F)) (h : HandlerFunc F) :
    applyMwares (xs ++ ys) h =
      match applyMwares ys h with
      | .error e => .error e
      | .ok h1 => applyMwares xs h1 := by
  induction xs with
  | nil =>
    simp only [List.nil_append]
    cases hys : applyMwares ys h with
    | error e => rfl
    | ok h1 => rfl
  | cons x xs ih =>
    simp only [List.cons_append, applyMwares_cons, ih]
    cases hys : applyMwares ys h with
    | error e => rfl
    | ok h1 => rfl

/-- C6: if some middleware `m` of the group's sequence, applied during
composition to the (successful) wrapping of the unit's handler by the
later-registered middleware, returns the nil handler-function, then
composition itself fails fatally with `errFuncReturnNil` — immediately after
that application, whatever earlier-registered middleware (`pre`) is still
pending, and never deferred to request-serving time. -/
theorem middleware_produced_nil_fatal {F : Type} (g : Group F)
    (pre post : List (Middleware F)) (m : Middleware F) (p : String) (f : F)
    (h1 : HandlerFunc F)
    (hmw : g.mwares = pre.map some ++ some m :: post.map some)
    (hroutes : g.routes = [⟨p, some f⟩])
    (hpost : applyMwares (post.map some) (some f) = .ok h1)
    (hm : m h1 = none) :
    g.compose = .error .funcReturnNil := by
  have happ : applyMwares g.mwares (some f) = .error .funcReturnNil := by
    rw [hmw]
    rw [show (some m :: post.map some : List (MwVal F)) = [some m] ++ post.map some from rfl,
      ← List.append_assoc]
    rw [applyMwares_append (pre.map some ++ [some m]) (post.map some) (some f), hpost]
    simp only []
    rw [applyMwares_append (pre.map some) [some m] h1]
    simp only [applyMwares, applyOne, hm]
  unfold Group.compose
  rw [hroutes]
  unfold wrapRoutes
  simp only [wrapRoutes, happ]

/-- C6 witness: a three-middleware chain whose middle element returns nil;
composition of the concrete group fails with `errFuncReturnNil` even though
an earlier-registered middleware is still pending. -/
theorem middleware_produced_nil_fatal_witness :
    Group.compose (⟨none, [some (Option.map (· + 1)), some (fun _ => none),
        some (Option.map (· * 2))], [⟨("/a"), some 3⟩]⟩ : Group Nat) =
      .error .funcReturnNil :=
  middleware_produced_nil_fatal
    (⟨none, [some (Option.map (· + 1)), some (fun _ => none),
      some (Option.map (· * 2))], [⟨("/a"), some 3⟩]⟩ : Group Nat)
    [Option.map (· + 1)] [Option.map (· * 2)] (fun _ => none) ("/a") 3 (some 6)
    rfl rfl rfl rfl

/-- C2: a parent group with registered units `R` and middleware `pm` registers
two sibling subgroups (middleware `s1m` over units `R1`, middleware `s2m` over
units `R2`).  After the registration, the parent owns `R` followed by each
subgroup's units wrapped with only that subgroup's own middleware; after the
parent's composition, every unit the parent owns is wrapped with `pm` on top —
so `s1m` touches exactly the units that came from the first subgroup, never
the parent's own units nor the sibling's, and `pm` is applied uniformly to
all of them. -/
theorem subgroup_middleware_isolation {F : Type} (wrapH : F → F)
    (pm s1m s2m : List (Middleware F)) (R R1 R2 : List (Route F))
    (P1 P2 : Group F)
    (hH : Group.Handle wrapH (⟨none, pm.map some, R⟩ : Group F)
        [.groupPtr (some ⟨none, s1m.map some, R1⟩),
          .groupPtr (some ⟨none, s2m.map some, R2⟩)] = .ok P1)
    (hC : P1.compose = .ok P2) :
    P1.routes = R ++ wrapList s1m R1 ++ wrapList s2m R2 ∧
      P2.routes = wrapList pm R ++ wrapList pm (wrapList s1m R1) ++
        wrapList pm (wrapList s2m R2) := by
  simp only [Group.Handle, handleLoop] at hH
  cases hS1 : Group.compose (⟨none, s1m.map some, R1⟩ : Group F) with
  | error e => rw [hS1] at hH; exact absurd hH (by simp)
  | ok S1c =>
    rw [hS1] at hH
    simp only [] at hH
    cases hS2 : Group.compose (⟨none, s2m.map some, R2⟩ : Group F) with
    | error e => rw [hS2] at hH; exact absurd hH (by simp)
    | ok S2c =>
      rw [hS2] at hH
      simp only [Except.ok.injEq] at hH
      have h1r : S1c.routes = wrapList s1m R1 :=
        wrapRoutes_map_some_ok s1m R1 S1c.routes (compose_ok_inv _ S1c rfl hS1).1
      have h2r : S2c.routes = wrapList s2m R2 :=
        wrapRoutes_map_some_ok s2m R2 S2c.routes (compose_ok_inv _ S2c rfl hS2).1
      subst hH
      have hP2 : P2.routes = wrapList pm ((R ++ S1c.routes) ++ S2c.routes) :=
        wrapRoutes_map_some_ok pm _ P2.routes (compose_ok_inv _ P2 rfl hC).1
      constructor
      · show (R ++ S1c.routes) ++ S2c.routes = R ++ wrapList s1m R1 ++ wrapList s2m R2
        rw [h1r, h2r]
      · rw [hP2, h1r, h2r]
        simp [wrapList, List.map_append]

/-- C2 witness: a parent with its own unit and two one-unit subgroups, each
of the three carrying one arithmetic middleware; the subgroup wrappings stay
with their own units and the parent's wrapping lands on all three. -/
theorem subgroup_middleware_isolation_witness :
    Group.Handle (id : Nat → Nat)
        (⟨none, [some (Option.map (· + 100))], [⟨("/g"), some 1⟩]⟩ : Group Nat)
        [.groupPtr (some ⟨none, [some (Option.map (· + 10))], [⟨("/s1"), some 2⟩]⟩),
          .groupPtr (some ⟨none, [some (Option.map (· + 20))], [⟨("/s2"), some 3⟩]⟩)] =
      .ok (⟨none, [some (Option.map (· + 100))],
        [⟨("/g"), some 1⟩, ⟨("/s1"), some 12⟩, ⟨("/s2"), some 23⟩]⟩ : Group Nat) ∧
    Group.compose (⟨none, [some (Option.map (· + 100))],
        [⟨("/g"), some 1⟩, ⟨("/s1"), some 12⟩, ⟨("/s2"), some 23⟩]⟩ : Group Nat) =
      .ok (⟨none, [some (Option.map (· + 100))],
        [⟨("/g"), some 101⟩, ⟨("/s1"), some 112⟩, ⟨("/s2"), some 123⟩]⟩ : Group Nat) ∧
    (([⟨("/g"), some 1⟩, ⟨("/s1"), some 12⟩, ⟨("/s2"), some 23⟩] : List (Route Nat)) =
        [⟨("/g"), some 1⟩] ++ wrapList [Option.map (· + 10)] [⟨("/s1"), some 2⟩] ++
          wrapList [Option.map (· + 20)] [⟨("/s2"), some 3⟩] ∧
      ([⟨("/g"), some 101⟩, ⟨("/s1"), some 112⟩, ⟨("/s2"), some 123⟩] : List (Route Nat)) =
        wrapList [Option.map (· + 100)] [⟨("/g"), some 1⟩] ++
          wrapList [Option.map (· + 100)]
            (wrapList [Option.map (· + 10)] [⟨("/s1"), some 2⟩]) ++
          wrapList [Option.map (· + 100)]
            (wrapList [Option.map (· + 20)] [⟨("/s2"), some 3⟩])) :=
  ⟨rfl, rfl, subgroup_middleware_isolation (id : Nat → Nat)
    [Option.map (· + 100)] [Option.map (· + 10)] [Option.map (· + 20)]
    [⟨("/g"), some 1⟩] [⟨("/s1"), some 2⟩] [⟨("/s2"), some 3⟩]
    (⟨none, [some (Option.map (· + 100))],
      [⟨("/g"), some 1⟩, ⟨("/s1"), some 12⟩, ⟨("/s2"), some 23⟩]⟩ : Group Nat)
    (⟨none, [some (Option.map (· + 100))],
      [⟨("/g"), some 101⟩, ⟨("/s1"), some 112⟩, ⟨("/s2"), some 123⟩]⟩ : Group Nat)
    rfl rfl⟩


/-- C5: nesting a subgroup `S` (at store index `si`) into a parent `G` (at a
different index `gi`) copies `S`'s composed — flattened and wrapped — units
into `G`; any later mutation of `S`, attaching middleware or registering
units, leaves `G`'s group struct (its unit sequence and middleware sequence)
exactly as the nesting left it: no shared mutable state survives the nesting
operation. -/
theorem nesting_no_shared_state {F : Type} (wrapH : F → F) (σ σ1 σ2 : Store F)
    (gi si : Nat) (hne : gi ≠ si) (m : SubMutation F)
    (h1 : storeHandleGroup σ gi si = .ok σ1)
    (h2 : storeMutate wrapH σ1 si m = .ok σ2) :
    σ2.get? gi = σ1.get? gi ∧
      ∀ g s s', σ.get? gi = some g → σ.get? si = some s → s.compose = .ok s' →
        σ1.get? gi = some { g with routes := g.routes ++ s'.routes } := by
  constructor
  · cases m with
    | attach args =>
      simp only [storeMutate] at h2
      cases hs : σ1.get? si with
      | none => rw [hs] at h2; exact absurd h2 (by simp)
      | some s =>
        rw [hs] at h2
        simp only [] at h2
        cases hw : s.Wrap args with
        | error e => rw [hw] at h2; exact absurd h2 (by simp)
        | ok s' =>
          rw [hw] at h2
          simp only [Except.ok.injEq] at h2
          subst h2
          simp only [List.get?_eq_getElem?]
          exact List.getElem?_set_ne (by omega)
    | register args =>
      simp only [storeMutate] at h2
      cases hs : σ1.get? si with
      | none => rw [hs] at h2; exact absurd h2 (by simp)
      | some s =>
        rw [hs] at h2
        simp only [] at h2
        cases hw : Group.Handle wrapH s args with
        | error e => rw [hw] at h2; exact absurd h2 (by simp)
        | ok s' =>
          rw [hw] at h2
          simp only [Except.ok.injEq] at h2
          subst h2
          simp only [List.get?_eq_getElem?]
          exact List.getElem?_set_ne (by omega)
  · intro g s s' hg hs hc
    simp only [storeHandleGroup, hg, hs, hc] at h1
    simp only [Except.ok.injEq] at h1
    subst h1
    have hglen : gi < σ.length := by
      rw [List.get?_eq_getElem?] at hg
      exact (List.getElem?_eq_some.mp hg).1
    simp only [List.get?_eq_getElem?]
    exact List.getElem?_set_eq_of_lt _ (by simpa using hglen)

/-- C5 witness: a two-slot store — parent at index 0, subgroup at index 1;
the subgroup is nested, then a further unit is registered on it; the parent's
entry is untouched by the later registration and holds the copied unit. -/
theorem nesting_no_shared_state_witness :
    storeHandleGroup
        ([⟨none, [], [⟨("/g"), some 1⟩]⟩, ⟨none, [], [⟨("/s"), some 2⟩]⟩] : Store Nat) 0 1 =
      .ok [⟨none, [], [⟨("/g"), some 1⟩, ⟨("/s"), some 2⟩]⟩, ⟨none, [], [⟨("/s"), some 2⟩]⟩] ∧
    storeMutate (id : Nat → Nat)
        ([⟨none, [], [⟨("/g"), some 1⟩, ⟨("/s"), some 2⟩]⟩,
          ⟨none, [], [⟨("/s"), some 2⟩]⟩] : Store Nat) 1
        (.register [.str ("/x"), .handlerFn (some 3)]) =
      .ok [⟨none, [], [⟨("/g"), some 1⟩, ⟨("/s"), some 2⟩]⟩,
        ⟨none, [], [⟨("/s"), some 2⟩, ⟨("/x"), some 3⟩]⟩] ∧
    (([⟨none, [], [⟨("/g"), some 1⟩, ⟨("/s"), some 2⟩]⟩,
          ⟨none, [], [⟨("/s"), some 2⟩, ⟨("/x"), some 3⟩]⟩] : Store Nat).get? 0 =
        ([⟨none, [], [⟨("/g"), some 1⟩, ⟨("/s"), some 2⟩]⟩,
          ⟨none, [], [⟨("/s"), some 2⟩]⟩] : Store Nat).get? 0 ∧
      ∀ g s s',
        ([⟨none, [], [⟨("/g"), some 1⟩]⟩, ⟨none, [], [⟨("/s"), some 2⟩]⟩] : Store Nat).get? 0 =
            some g →
        ([⟨none, [], [⟨("/g"), some 1⟩]⟩, ⟨none, [], [⟨("/s"), some 2⟩]⟩] : Store Nat).get? 1 =
            some s →
        s.compose = .ok s' →
        ([⟨none, [], [⟨("/g"), some 1⟩, ⟨("/s"), some 2⟩]⟩,
            ⟨none, [], [⟨("/s"), some 2⟩]⟩] : Store Nat).get? 0 =
          some { g with routes := g.routes ++ s'.routes }) :=
  ⟨rfl, rfl, nesting_no_shared_state (id : Nat → Nat)
    ([⟨none, [], [⟨("/g"), some 1⟩]⟩, ⟨none, [], [⟨("/s"), some 2⟩]⟩] : Store Nat)
    ([⟨none, [], [⟨("/g"), some 1⟩, ⟨("/s"), some 2⟩]⟩,
      ⟨none, [], [⟨("/s"), some 2⟩]⟩] : Store Nat)
    ([⟨none, [], [⟨("/g"), some 1⟩, ⟨("/s"), some 2⟩]⟩,
      ⟨none, [], [⟨("/s"), some 2⟩, ⟨("/x"), some 3⟩]⟩] : Store Nat)
    0 1 (by decide) (.register [.str ("/x"), .handlerFn (some 3)]) rfl rfl⟩

end Route
